import Mathlib

/-!
Verification of the AddDisplacedPoints repository.

The program reads labeled 3D points, classifies each point as BLUE or RED
from the numeric part of its label via inclusive integer range tables,
and emits the (optional) original point followed by seven displaced copies
whose offsets come from the chosen displacement catalog (Extensions.h).

This file shallowly embeds the relevant source functions and proves the
specification claims about them.  Real-valued program quantities (double)
are modelled as exact real numbers; the program's `PI` constant is embedded
as the decimal literal written in the source.
-/

namespace AddDisplaced

noncomputable section

/-! ## Data model -/

/-- Modelled from the spec: the coordinate triple of a point as produced by
the point reader (`Points.h`, not present under `src/`): the three real
coordinates `coords[0]`, `coords[1]`, `coords[2]` in millimeters. -/
structure Vec3 where
  x : ℝ
  y : ℝ
  z : ℝ

/-- Modelled from the spec: a point record as produced by the point reader
(`Points.h`, not present under `src/`): a text `label` and three real
coordinates.  Its use in `main` (`p.label`, `p.coords[0..2]`) fixes this
shape. -/
structure Point where
  label : String
  coords : Vec3

/-! ## Label classifier (`extractLabelNumber`, AddDisplacedPoints.cpp) -/

/-- Numeric value of one ASCII digit character, as `c - '0'` in C. -/
def digitVal (c : Char) : ℕ := c.toNat - 48

/-- Base-10 value of a digit string, accumulated left to right. -/
def digitValue (digits : List Char) : ℕ :=
  digits.foldl (fun a c => 10 * a + digitVal c) 0

/-- Largest value of a C `int` (32-bit): `std::stoi` throws
`std::out_of_range` beyond it. -/
def intMax : ℕ := 2147483647

/-- Model of `std::stoi` applied to a nonempty all-digit string: the base-10
value if it fits in `int`, otherwise the thrown `std::out_of_range`
(modelled as `Except.error`). -/
def stoi (digits : List Char) : Except Unit Int :=
  if digitValue digits ≤ intMax then .ok (digitValue digits : ℕ) else .error ()

/-- `extractLabelNumber` from AddDisplacedPoints.cpp: keep the decimal digit
characters of the label in order; `-1` if there are none, else `std::stoi`
of the digit string (which may throw, hence `Except`). -/
def extractLabelNumber (label : String) : Except Unit Int :=
  let digits := label.data.filter (fun c => c.isDigit)
  if digits.isEmpty then .ok (-1)
  else stoi digits

/-! ## Range tables (`Range`, `rangesBlue`, `rangesRed`, `inAnyRange`) -/

/-- Simple inclusive integer range. -/
structure Range where
  lo : Int
  hi : Int

/-- BLUE label-number ranges. -/
def rangesBlue : List Range :=
  [⟨1, 8⟩, ⟨16, 21⟩, ⟨28, 32⟩, ⟨37, 39⟩, ⟨42, 42⟩]

/-- RED label-number ranges. -/
def rangesRed : List Range :=
  [⟨9, 15⟩, ⟨22, 27⟩, ⟨33, 36⟩, ⟨40, 41⟩]

/-- `inAnyRange`: whether `value` lies inside any of the ranges
(inclusive bounds). -/
def inAnyRange (ranges : List Range) (value : Int) : Bool :=
  ranges.any (fun rg => decide (rg.lo ≤ value ∧ value ≤ rg.hi))

/-! ## Displacement catalogs (Extensions.h, v3.0 chunk) -/

/-- One displacement entry: label suffix and coordinate offsets. -/
structure Extension where
  ext : String
  dx : ℝ
  dy : ℝ
  dz : ℝ

/-- The program's `PI` constant, embedded as the decimal literal written in
the source (`constexpr double PI = 3.14159265358979323846`). -/
def PI : ℝ := 3.14159265358979323846

/-- Small radial offset (mm). -/
def r : ℝ := 2.0

/-- 45 degree diagonal displacement magnitude (mm): `D = r * sqrt(2)`. -/
def D : ℝ := r * Real.sqrt 2.0

/-- Large radial offset (mm). -/
def R : ℝ := 6.0

/-- Degrees to radians conversion factor, using the program's `PI`. -/
def deg : ℝ := PI / 180

/-- Angle of the first large radial BLUE displacement. -/
def a1 : ℝ := (-30) * deg

/-- Angle of the second large radial BLUE displacement. -/
def a2 : ℝ := 90 * deg

/-- Angle of the third large radial BLUE displacement. -/
def a3 : ℝ := (-150) * deg

/-- BLUE displacement set (`extListBlue`). -/
def extListBlue : List Extension :=
  [⟨"_1", D, D, 0⟩,
   ⟨"_2", -D, D, 0⟩,
   ⟨"_3", -D, -D, 0⟩,
   ⟨"_4", D, -D, 0⟩,
   ⟨"_5", R * Real.cos a1, R * Real.sin a1, 0⟩,
   ⟨"_6", R * Real.cos a2, R * Real.sin a2, 0⟩,
   ⟨"_7", R * Real.cos a3, R * Real.sin a3, 0⟩]

/-- Number of BLUE entries (`sizeof/sizeof`). -/
def numExtBlue : ℕ := extListBlue.length

/-- RED displacement set (`extListRed`): same geometry, Y of the radial
entries mirrored (`-R*std::sin(a)` in the source, i.e. `(-R) * sin a`). -/
def extListRed : List Extension :=
  [⟨"_1", D, D, 0⟩,
   ⟨"_2", -D, D, 0⟩,
   ⟨"_3", -D, -D, 0⟩,
   ⟨"_4", D, -D, 0⟩,
   ⟨"_5", R * Real.cos a1, (-R) * Real.sin a1, 0⟩,
   ⟨"_6", R * Real.cos a2, (-R) * Real.sin a2, 0⟩,
   ⟨"_7", R * Real.cos a3, (-R) * Real.sin a3, 0⟩]

/-- Number of RED entries (`sizeof/sizeof`). -/
def numExtRed : ℕ := extListRed.length

/-! ## Category resolution (`chooseSet`) -/

/-- `chooseSet` from AddDisplacedPoints.cpp: BLUE if the (non-negative)
label number lies in a BLUE range, else RED if in a RED range, else the
RED fallback.  The returned list plays the role of the returned pointer
plus `count`. -/
def chooseSet (number : Int) : List Extension :=
  if decide (0 ≤ number) && inAnyRange rangesBlue number then extListBlue
  else if decide (0 ≤ number) && inAnyRange rangesRed number then extListRed
  else extListRed

/-- Generalization of `chooseSet` over the two range tables, used to state
that the no-key sentinel is resolved without consulting either table.
`chooseSet = chooseSetG rangesBlue rangesRed` definitionally. -/
def chooseSetG (blue red : List Range) (number : Int) : List Extension :=
  if decide (0 ≤ number) && inAnyRange blue number then extListBlue
  else if decide (0 ≤ number) && inAnyRange red number then extListRed
  else extListRed

/-! ## Displacement engine (the processing loop of `main`) -/

/-- Body of the inner loop of `main`: the displaced point for source point
`p` and entry `e`: label `p.label + e.ext`, coordinates
`(x + e.dx, y + e.dy, z + e.dz)`. -/
def applyExt (p : Point) (e : Extension) : Point :=
  { label := p.label ++ e.ext
    coords := { x := p.coords.x + e.dx
                y := p.coords.y + e.dy
                z := p.coords.z + e.dz } }

/-- Body of the outer loop of `main` for one input point `p`, threading the
list of CSV records emitted so far (`out`): extract the label number
(`std::stoi` may throw), choose the displacement set, append the original
record when `writeOriginal`, then append one displaced record per entry. -/
def runStep (writeOriginal : Bool) (out : List Point) (p : Point) :
    Except Unit (List Point) := do
  let number ← extractLabelNumber p.label
  let extList := chooseSet number
  let out := if writeOriginal then out ++ [p] else out
  pure (out ++ extList.map (fun e => applyExt p e))

/-- The CSV-emitting part of `main`: fold the per-point loop body over the
input points in order, starting from an empty output stream. -/
def run (writeOriginal : Bool) (points : List Point) :
    Except Unit (List Point) :=
  points.foldlM (runStep writeOriginal) []

/-- Reference recursion for `run`: the records emitted for each point in
input order, concatenated.  `run` is proved equal to it below; it makes the
per-point structure of the output stream explicit. -/
def outLines (writeOriginal : Bool) : List Point → Except Unit (List Point)
  | [] => .ok []
  | p :: rest => do
      let number ← extractLabelNumber p.label
      let tail ← outLines writeOriginal rest
      pure (((if writeOriginal then [p] else []) ++
             (chooseSet number).map (fun e => applyExt p e)) ++ tail)

/-! ## Spec-side catalog construction (for the refinement claim C6) -/

/-- Follows the spec's words (section 4.3): the four diagonal entries at the
signed combinations `(+D,+D), (-D,+D), (-D,-D), (+D,-D)`, z-offset zero,
with suffixes `"_1".."_4"`. -/
def specDiagonal (Dm : ℝ) : List Extension :=
  [⟨"_1", Dm, Dm, 0⟩, ⟨"_2", -Dm, Dm, 0⟩, ⟨"_3", -Dm, -Dm, 0⟩, ⟨"_4", Dm, -Dm, 0⟩]

/-- Follows the spec's words (section 4.3): the three radial entries
`(R cos a, R sin a)` at angles `-30`, `+90`, `-150` degrees with a common
zero z-offset and suffixes `"_5".."_7"`; the second (mirrored) category
negates exactly the y component.  The degree-to-radian conversion uses the
program's `PI` constant. -/
def specRadial (Rm : ℝ) (mirrorY : Bool) : List Extension :=
  [⟨"_5", Rm * Real.cos ((-30) * deg),
     (if mirrorY then -(Rm * Real.sin ((-30) * deg)) else Rm * Real.sin ((-30) * deg)), 0⟩,
   ⟨"_6", Rm * Real.cos (90 * deg),
     (if mirrorY then -(Rm * Real.sin (90 * deg)) else Rm * Real.sin (90 * deg)), 0⟩,
   ⟨"_7", Rm * Real.cos ((-150) * deg),
     (if mirrorY then -(Rm * Real.sin ((-150) * deg)) else Rm * Real.sin ((-150) * deg)), 0⟩]

/-- Follows the spec's words (section 4.3): a category's displacement set is
the four diagonal entries (magnitude `D` derived from the base radius `r`
by a `sqrt 2` factor, the source's convention `D = r * sqrt 2`) followed by
the three radial entries at magnitude `R`; `mirrorY` selects the second
category, which mirrors only the radial y components. -/
def specSet (mirrorY : Bool) : List Extension :=
  specDiagonal (r * Real.sqrt 2.0) ++ specRadial R mirrorY

end

/-! ## Helper lemmas -/

lemma inAnyRange_iff_exists (ranges : List Range) (v : Int) :
    inAnyRange ranges v = true ↔ ∃ rg ∈ ranges, rg.lo ≤ v ∧ v ≤ rg.hi := by
  simp [inAnyRange, List.any_eq_true]

lemma inAnyRange_blue_iff (v : Int) :
    inAnyRange rangesBlue v = true ↔
      (1 ≤ v ∧ v ≤ 8) ∨ (16 ≤ v ∧ v ≤ 21) ∨ (28 ≤ v ∧ v ≤ 32) ∨
      (37 ≤ v ∧ v ≤ 39) ∨ v = 42 := by
  simp [inAnyRange, rangesBlue]
  omega

lemma inAnyRange_red_iff (v : Int) :
    inAnyRange rangesRed v = true ↔
      (9 ≤ v ∧ v ≤ 15) ∨ (22 ≤ v ∧ v ≤ 27) ∨ (33 ≤ v ∧ v ≤ 36) ∨
      (40 ≤ v ∧ v ≤ 41) := by
  simp [inAnyRange, rangesRed]

lemma chooseSet_of_nonneg (n : Int) (hn : 0 ≤ n) :
    chooseSet n =
      if inAnyRange rangesBlue n then extListBlue
      else if inAnyRange rangesRed n then extListRed
      else extListRed := by
  unfold chooseSet
  rw [decide_eq_true hn]
  simp only [Bool.true_and]

lemma chooseSet_cases (n : Int) :
    chooseSet n = extListBlue ∨ chooseSet n = extListRed := by
  unfold chooseSet
  split
  · exact Or.inl rfl
  · split
    · exact Or.inr rfl
    · exact Or.inr rfl

lemma chooseSet_length (n : Int) : (chooseSet n).length = 7 := by
  rcases chooseSet_cases n with h | h <;> rw [h] <;> rfl

lemma digitValue_foldl (l : List Char) :
    ∀ a : ℕ,
      l.foldl (fun acc c => 10 * acc + digitVal c) a =
        a * 10 ^ l.length + Nat.ofDigits 10 ((l.map digitVal).reverse) := by
  induction l with
  | nil => intro a; simp [Nat.ofDigits]
  | cons c l ih =>
      intro a
      simp only [List.foldl_cons, ih, List.map_cons, List.reverse_cons,
        Nat.ofDigits_append, List.length_cons, List.length_reverse,
        List.length_map, Nat.ofDigits_singleton, pow_succ]
      ring

lemma digitValue_eq_ofDigits (l : List Char) :
    digitValue l = Nat.ofDigits 10 ((l.map digitVal).reverse) := by
  simpa using digitValue_foldl l 0

lemma except_bind_ok {α β : Type} (a : α) (f : α → Except Unit β) :
    (Except.ok a >>= f) = f a := rfl

lemma except_bind_error {α β : Type} (e : Unit) (f : α → Except Unit β) :
    ((Except.error e : Except Unit α) >>= f) = Except.error e := rfl

lemma except_pure {α : Type} (a : α) : (pure a : Except Unit α) = Except.ok a := rfl

lemma except_map_ok {α β : Type} (f : α → β) (a : α) :
    Except.map f (Except.ok a : Except Unit α) = Except.ok (f a) := rfl

lemma except_map_error {α β : Type} (f : α → β) (e : Unit) :
    Except.map f (Except.error e : Except Unit α) = Except.error e := rfl

lemma run_foldl_aux (w : Bool) (pts : List Point) :
    ∀ acc : List Point,
      pts.foldlM (runStep w) acc =
        Except.map (fun ls => acc ++ ls) (outLines w pts) := by
  induction pts with
  | nil => intro acc; simp [outLines, except_map_ok, except_pure]
  | cons p rest ih =>
      intro acc
      rw [List.foldlM_cons]
      show runStep w acc p >>= (fun s => List.foldlM (runStep w) s rest) = _
      cases he : extractLabelNumber p.label with
      | error e =>
          simp [runStep, outLines, he, except_bind_error, except_map_error]
      | ok n =>
          simp only [runStep, outLines, he, except_bind_ok, except_pure]
          rw [ih]
          cases ho : outLines w rest with
          | error e => simp [ho, except_bind_error, except_map_error]
          | ok tail =>
              simp only [ho, except_bind_ok, except_pure, except_map_ok]
              cases w <;> simp [List.append_assoc]

lemma run_eq_outLines (w : Bool) (pts : List Point) :
    run w pts = outLines w pts := by
  rw [run, run_foldl_aux]
  cases h : outLines w pts <;>
    simp [except_map_ok, except_map_error]

lemma outLines_ok_shape (w : Bool) :
    ∀ (pts out : List Point), outLines w pts = .ok out →
      out = pts.flatMap (fun p =>
        match extractLabelNumber p.label with
        | .ok n => (if w then [p] else []) ++ (chooseSet n).map (applyExt p)
        | .error _ => []) := by
  intro pts
  induction pts with
  | nil => intro out h; cases h; rfl
  | cons p rest ih =>
      intro out h
      cases he : extractLabelNumber p.label with
      | error e =>
          rw [outLines, he, except_bind_error] at h
          cases h
      | ok n =>
          cases ho : outLines w rest with
          | error e =>
              rw [outLines, he, except_bind_ok, ho, except_bind_error] at h
              cases h
          | ok tail =>
              rw [outLines, he, except_bind_ok, ho, except_bind_ok,
                except_pure] at h
              cases h
              rw [List.flatMap_cons, ih tail ho, he]

lemma outLines_ok_length (w : Bool) :
    ∀ (pts out : List Point), outLines w pts = .ok out →
      out.length = (if w then pts.length + pts.length * 7 else pts.length * 7) := by
  intro pts
  induction pts with
  | nil => intro out h; cases h; cases w <;> rfl
  | cons p rest ih =>
      intro out h
      cases he : extractLabelNumber p.label with
      | error e =>
          rw [outLines, he, except_bind_error] at h
          cases h
      | ok n =>
          cases ho : outLines w rest with
          | error e =>
              rw [outLines, he, except_bind_ok, ho, except_bind_error] at h
              cases h
          | ok tail =>
              rw [outLines, he, except_bind_ok, ho, except_bind_ok,
                except_pure] at h
              cases h
              have htail := ih tail ho
              cases w <;>
                simp only [List.length_append, List.length_map,
                  chooseSet_length, List.length_cons, htail] <;>
                simp <;> omega


lemma extract_ok_cases (s : String) (k : Int)
    (h : extractLabelNumber s = .ok k) : k = -1 ∨ 0 ≤ k := by
  simp only [extractLabelNumber] at h
  split at h
  · cases h; exact Or.inl rfl
  · simp only [stoi] at h
    split at h
    · cases h; exact Or.inr (Int.natCast_nonneg _)
    · simp at h

/-- Claim C1: for every classification key, the no-key sentinel resolves to
the RED fallback without consulting either range table; a non-negative key
resolves to BLUE if it lies in at least one BLUE range (inclusive bounds),
else to RED if in at least one RED range, else to the RED fallback, BLUE
being tested before RED.  The classifier only produces the sentinel or
non-negative keys. -/
theorem claim1_category_resolution :
    (∀ blue red : List Range, chooseSetG blue red (-1) = extListRed) ∧
    (chooseSetG rangesBlue rangesRed = chooseSet) ∧
    (∀ (ranges : List Range) (v : Int),
        inAnyRange ranges v = true ↔ ∃ rg ∈ ranges, rg.lo ≤ v ∧ v ≤ rg.hi) ∧
    (∀ (s : String) (k : Int), extractLabelNumber s = .ok k → k = -1 ∨ 0 ≤ k) ∧
    (∀ n : Int, 0 ≤ n →
        chooseSet n =
          if inAnyRange rangesBlue n then extListBlue
          else if inAnyRange rangesRed n then extListRed
          else extListRed) :=
  ⟨fun _ _ => rfl, rfl, inAnyRange_iff_exists, extract_ok_cases, chooseSet_of_nonneg⟩

theorem claim1_witness :
    chooseSetG [] [] (-1) = extListRed ∧
    ((-1 : Int) = -1 ∨ 0 ≤ (-1 : Int)) ∧
    chooseSet 5 =
      (if inAnyRange rangesBlue 5 then extListBlue
       else if inAnyRange rangesRed 5 then extListRed
       else extListRed) :=
  ⟨claim1_category_resolution.1 [] [],
   claim1_category_resolution.2.2.2.1 "X" (-1) rfl,
   claim1_category_resolution.2.2.2.2 5 (by decide)⟩

/-- Claim C2: the classifier keeps exactly the decimal digit characters of
the label in encounter order and parses their concatenation as a base-10
non-negative integer (value `Nat.ofDigits 10` of the little-endian digit
values); a label with no digit yields the sentinel `-1`; the label
"ABC015Z9" yields key 159, not 15 or 9. -/
theorem claim2_label_classification :
    (∀ s : String, s.data.filter (fun c => c.isDigit) = [] →
        extractLabelNumber s = .ok (-1)) ∧
    (∀ (s : String) (ds : List Char), s.data.filter (fun c => c.isDigit) = ds →
        ds ≠ [] → Nat.ofDigits 10 ((ds.map digitVal).reverse) ≤ intMax →
        extractLabelNumber s =
          .ok ((Nat.ofDigits 10 ((ds.map digitVal).reverse) : ℕ) : Int)) ∧
    extractLabelNumber "ABC015Z9" = .ok 159 ∧
    extractLabelNumber "ABC015Z9" ≠ .ok 15 ∧
    extractLabelNumber "ABC015Z9" ≠ .ok 9 := by
  refine ⟨?_, ?_, rfl, ?_, ?_⟩
  · intro s h
    simp [extractLabelNumber, h]
  · intro s ds hds hne hle
    have hfe : ds.isEmpty = false := by
      cases ds with
      | nil => exact absurd rfl hne
      | cons a l => rfl
    rw [← digitValue_eq_ofDigits] at hle ⊢
    simp [extractLabelNumber, stoi, hds, hfe, hle]
  · intro h
    rw [show extractLabelNumber "ABC015Z9" = .ok 159 from rfl] at h
    simp at h
  · intro h
    rw [show extractLabelNumber "ABC015Z9" = .ok 159 from rfl] at h
    simp at h

theorem claim2_witness :
    extractLabelNumber "XY" = .ok (-1) ∧
    extractLabelNumber "C12" =
      .ok ((Nat.ofDigits 10 ((['1', '2'].map digitVal).reverse) : ℕ) : Int) :=
  ⟨claim2_label_classification.1 "XY" rfl,
   claim2_label_classification.2.1 "C12" ['1', '2'] rfl (by decide) (by decide)⟩

/-- Claim C3: on every successful run, the emitted stream is, for each input
point in input order, the optional verbatim original (when `writeOriginal`)
followed immediately by the derived points in displacement-set order, with
no reordering or deduplication; each derived point's label is the source
label with the entry suffix appended and its coordinates are the source
coordinates plus the entry offset componentwise. -/
theorem claim3_expansion_contract :
    ∀ (w : Bool) (pts out : List Point), run w pts = .ok out →
      (out = pts.flatMap (fun p =>
        match extractLabelNumber p.label with
        | .ok n => (if w then [p] else []) ++ (chooseSet n).map (applyExt p)
        | .error _ => [])) ∧
      (∀ (p : Point) (e : Extension),
        (applyExt p e).label = p.label ++ e.ext ∧
        (applyExt p e).coords.x = p.coords.x + e.dx ∧
        (applyExt p e).coords.y = p.coords.y + e.dy ∧
        (applyExt p e).coords.z = p.coords.z + e.dz) := by
  intro w pts out h
  rw [run_eq_outLines] at h
  exact ⟨outLines_ok_shape w pts out h, fun p e => ⟨rfl, rfl, rfl, rfl⟩⟩

theorem claim3_witness :
    run true [⟨"A1", ⟨100, 200, 3⟩⟩] =
      .ok ([⟨"A1", ⟨100, 200, 3⟩⟩] ++
           extListBlue.map (applyExt ⟨"A1", ⟨100, 200, 3⟩⟩)) ∧
    ([⟨"A1", ⟨100, 200, 3⟩⟩] ++
       extListBlue.map (applyExt ⟨"A1", ⟨100, 200, 3⟩⟩) : List Point) =
      ([⟨"A1", ⟨100, 200, 3⟩⟩] : List Point).flatMap (fun p =>
        match extractLabelNumber p.label with
        | .ok n => (if true then [p] else []) ++ (chooseSet n).map (applyExt p)
        | .error _ => []) := by
  constructor
  · rfl
  · exact (claim3_expansion_contract true [(⟨"A1", ⟨100, 200, 3⟩⟩ : Point)]
      ([(⟨"A1", ⟨100, 200, 3⟩⟩ : Point)] ++
        extListBlue.map (applyExt ⟨"A1", ⟨100, 200, 3⟩⟩)) rfl).1

/-- Claim C4: a successful run over N input points emits exactly N + N*7
points when originals are kept and exactly N*7 points when they are not
(both default displacement sets have 7 entries), and the empty input
produces zero emitted points with no error. -/
theorem claim4_emission_count :
    (∀ (w : Bool) (pts out : List Point), run w pts = .ok out →
        out.length =
          (if w then pts.length + pts.length * 7 else pts.length * 7)) ∧
    (∀ w : Bool, run w [] = .ok []) := by
  constructor
  · intro w pts out h
    rw [run_eq_outLines] at h
    exact outLines_ok_length w pts out h
  · intro w; rfl

theorem claim4_witness :
    run false [⟨"B9", ⟨0, 0, 0⟩⟩] =
      .ok (extListRed.map (applyExt ⟨"B9", ⟨0, 0, 0⟩⟩)) ∧
    (extListRed.map (applyExt ⟨"B9", ⟨0, 0, 0⟩⟩)).length =
      (if false then
        ([⟨"B9", ⟨0, 0, 0⟩⟩] : List Point).length +
          ([⟨"B9", ⟨0, 0, 0⟩⟩] : List Point).length * 7
       else ([⟨"B9", ⟨0, 0, 0⟩⟩] : List Point).length * 7) :=
  ⟨rfl, claim4_emission_count.1 false [⟨"B9", ⟨0, 0, 0⟩⟩]
      (extListRed.map (applyExt ⟨"B9", ⟨0, 0, 0⟩⟩)) rfl⟩

/-- Claim C5: the four diagonal entries of the BLUE and RED sets are
pointwise identical (same suffix, dx, dy, dz), and each of the three radial
RED entries equals the corresponding BLUE entry with identical suffix, x
and z components and negated y component. -/
theorem claim5_mirror_invariant :
    extListBlue.take 4 = extListRed.take 4 ∧
    (extListRed.drop 4).map (fun e => (e.ext, e.dx, e.dz)) =
      (extListBlue.drop 4).map (fun e => (e.ext, e.dx, e.dz)) ∧
    (extListRed.drop 4).map (fun e => e.dy) =
      (extListBlue.drop 4).map (fun e => -e.dy) := by
  refine ⟨rfl, rfl, ?_⟩
  simp [extListBlue, extListRed, neg_mul]

/-- Claim C6: each category's displacement set is the four diagonal entries
at the signed combinations (+D,+D), (-D,+D), (-D,-D), (+D,-D) with zero
z-offset, D derived from the base radius r by a sqrt 2 factor, followed by
the three radial entries (R cos a, R sin a) at -30, +90 and -150 degrees
(y negated for the second category) with a common zero z-offset: the source
catalogs equal the construction written from the spec's words. -/
theorem claim6_catalog_geometry :
    extListBlue = specSet false ∧ extListRed = specSet true := by
  constructor <;>
    simp [extListBlue, extListRed, specSet, specDiagonal, specRadial,
      D, a1, a2, a3, neg_mul]

/-- Claim C7 (counterexample): on the label "9999999999", whose digit string
exceeds the int range, the classifier does not return a value — std::stoi
throws std::out_of_range (modelled as `Except.error`), refuting totality
for every text input. -/
theorem claim7_counterexample :
    extractLabelNumber "9999999999" = .error () := rfl

/-- Claim C7 (amended): the classifier returns a value and raises no error
for every label whose digit-string value fits in the int range (including
all digit-free labels); for labels whose digit-string value exceeds the int
range it raises std::out_of_range. -/
theorem claim7_totality_amended :
    (∀ s : String, digitValue (s.data.filter (fun c => c.isDigit)) ≤ intMax →
        ∃ k : Int, extractLabelNumber s = .ok k) ∧
    (∀ s : String, intMax < digitValue (s.data.filter (fun c => c.isDigit)) →
        extractLabelNumber s = .error ()) := by
  constructor
  · intro s h
    by_cases hfe : (s.data.filter (fun c => c.isDigit)).isEmpty = true
    · exact ⟨-1, by simp [extractLabelNumber, hfe]⟩
    · exact ⟨(digitValue (s.data.filter (fun c => c.isDigit)) : ℕ),
        by simp [extractLabelNumber, stoi, hfe, h]⟩
  · intro s h
    have hne : (s.data.filter (fun c => c.isDigit)).isEmpty = false := by
      cases hfe : s.data.filter (fun c => c.isDigit) with
      | nil => rw [hfe] at h; simp [digitValue, intMax] at h
      | cons a l => rfl
    simp only [extractLabelNumber, stoi, hne, Bool.false_eq_true,
      if_false]
    rw [if_neg (by omega)]

theorem claim7_witness :
    (∃ k : Int, extractLabelNumber "C12" = .ok k) ∧
    extractLabelNumber "12345678901" = .error () :=
  ⟨claim7_totality_amended.1 "C12" (by decide),
   claim7_totality_amended.2 "12345678901" (by decide)⟩

/-- Claim C8: both default displacement sets have exactly 7 entries with
suffixes "_1" through "_7", unique within each set; `chooseSet` always
returns one of the two sets, hence a set of length 7; therefore every input
point yields exactly 7 derived points, independent of its category and of
the keep-original flag. -/
theorem claim8_seven_entries :
    numExtBlue = 7 ∧ numExtRed = 7 ∧
    extListBlue.map Extension.ext = ["_1", "_2", "_3", "_4", "_5", "_6", "_7"] ∧
    extListRed.map Extension.ext = ["_1", "_2", "_3", "_4", "_5", "_6", "_7"] ∧
    (["_1", "_2", "_3", "_4", "_5", "_6", "_7"] : List String).Nodup ∧
    (∀ n : Int, chooseSet n = extListBlue ∨ chooseSet n = extListRed) ∧
    (∀ n : Int, (chooseSet n).length = 7) ∧
    (∀ (w : Bool) (n : Int) (p : Point),
        ((if w then [p] else []) ++ (chooseSet n).map (applyExt p)).length =
          (if w then 1 else 0) + 7) := by
  refine ⟨rfl, rfl, rfl, rfl, by decide, chooseSet_cases, chooseSet_length, ?_⟩
  intro w n p
  cases w <;> simp [chooseSet_length]

/-- Claim C9: every entry of both default displacement sets has dz = 0, so
every derived point keeps the z coordinate of its source point unchanged;
only x and y are displaced. -/
theorem claim9_dz_zero :
    (∀ e ∈ extListBlue, e.dz = 0) ∧
    (∀ e ∈ extListRed, e.dz = 0) ∧
    (∀ (n : Int) (p : Point), ∀ q ∈ (chooseSet n).map (applyExt p),
        q.coords.z = p.coords.z) := by
  have hblue : ∀ e ∈ extListBlue, e.dz = 0 := by
    intro e he
    simp [extListBlue] at he
    rcases he with h | h | h | h | h | h | h <;> subst h <;> rfl
  have hred : ∀ e ∈ extListRed, e.dz = 0 := by
    intro e he
    simp [extListRed] at he
    rcases he with h | h | h | h | h | h | h <;> subst h <;> rfl
  refine ⟨hblue, hred, ?_⟩
  intro n p q hq
  rcases List.mem_map.mp hq with ⟨e, he, rfl⟩
  have hdz : e.dz = 0 := by
    rcases chooseSet_cases n with hc | hc <;> rw [hc] at he
    · exact hblue e he
    · exact hred e he
  show p.coords.z + e.dz = p.coords.z
  rw [hdz, add_zero]

theorem claim9_witness :
    (⟨"_1", D, D, 0⟩ : Extension).dz = 0 ∧
    (applyExt ⟨"Q3", ⟨7, 8, 9⟩⟩ ⟨"_1", D, D, 0⟩).coords.z =
      (⟨"Q3", ⟨7, 8, 9⟩⟩ : Point).coords.z :=
  ⟨claim9_dz_zero.1 ⟨"_1", D, D, 0⟩ (by simp [extListBlue]),
   claim9_dz_zero.2.2 3 ⟨"Q3", ⟨7, 8, 9⟩⟩
     (applyExt ⟨"Q3", ⟨7, 8, 9⟩⟩ ⟨"_1", D, D, 0⟩)
     (by rw [show chooseSet 3 = extListBlue from rfl]
         exact List.mem_map_of_mem _ (by simp [extListBlue]))⟩

/-- Claim C10: the default BLUE and RED range tables are pairwise disjoint
and their union is exactly the integers 1 through 42; no key matches both
categories, and every key outside 1..42 (such as 0) resolves to the RED
fallback. -/
theorem claim10_ranges_partition :
    ∀ k : Int,
      (¬ (inAnyRange rangesBlue k = true ∧ inAnyRange rangesRed k = true)) ∧
      ((inAnyRange rangesBlue k = true ∨ inAnyRange rangesRed k = true) ↔
        (1 ≤ k ∧ k ≤ 42)) ∧
      ((¬ (1 ≤ k ∧ k ≤ 42)) → chooseSet k = extListRed) := by
  intro k
  refine ⟨?_, ?_, ?_⟩
  · rintro ⟨h1, h2⟩
    rw [inAnyRange_blue_iff] at h1
    rw [inAnyRange_red_iff] at h2
    omega
  · rw [inAnyRange_blue_iff, inAnyRange_red_iff]
    omega
  · intro h
    have h1 : inAnyRange rangesBlue k = false := by
      cases hbb : inAnyRange rangesBlue k
      · rfl
      · rw [inAnyRange_blue_iff] at hbb; omega
    have h2 : inAnyRange rangesRed k = false := by
      cases hbb : inAnyRange rangesRed k
      · rfl
      · rw [inAnyRange_red_iff] at hbb; omega
    unfold chooseSet
    rw [h1, h2]
    simp

theorem claim10_witness :
    ¬ (inAnyRange rangesBlue 0 = true ∧ inAnyRange rangesRed 0 = true) ∧
    chooseSet 0 = extListRed :=
  ⟨(claim10_ranges_partition 0).1, (claim10_ranges_partition 0).2.2 (by decide)⟩

end AddDisplaced
